import Mathlib

/-!
Verification of the transaction ledger and reconciliation engine of the
Buying & Selling Dashboard repository.

Shallow embedding conventions:
* Python strings are modelled as `List Char`.
* Python floats are modelled as exact rationals (`ℚ`); the claims and the
  spec state the pricing/cap formulas as exact arithmetic identities.
* The SQL table of `transactions` is modelled as a list of `Transaction`
  records plus a next-id counter (`DB`); an `INSERT` appends a row with the
  next id, an `UPDATE ... WHERE id = ?` maps over rows with the matching id.
* Timestamps (`datetime.now()`) are supplied as an abstract tick `now : Nat`.
* Functions that report failure through `st.error` + `None`/`False` are
  modelled as returning the unchanged state together with `none`/`false`;
  the error-message text is dropped.
* The parameterized writes in transactions.py use sqlite-style `?`
  placeholders while `get_db_connection` yields a psycopg2 connection
  that accepts only `%s`, so in the staged program every such write
  raises and fails (`qmarkParamsAccepted = false` records this).
  Definitions whose claims depend on that behavior gate the write on the
  constant; the `add_buying_transaction` / `add_selling_transaction`
  definitions instead model the intended semantics of their SQL
  statements, a declared idealization under which the conditional
  theorems proved about them are at least as strong as the staged
  behavior.
-/

namespace SM

/-- Characters matched by Python's `\s` / stripped by `str.strip()`
(ASCII whitespace plus the Unicode whitespace code points). -/
def pyIsSpace (c : Char) : Bool :=
  c = ' ' || c = '\t' || c = '\n' || c = '\r' ||
  c.val = 0x0b || c.val = 0x0c ||
  (0x1c ≤ c.val && c.val ≤ 0x1f) ||
  c.val = 0x85 || c.val = 0xa0 || c.val = 0x1680 ||
  (0x2000 ≤ c.val && c.val ≤ 0x200a) ||
  c.val = 0x2028 || c.val = 0x2029 || c.val = 0x202f || c.val = 0x205f ||
  c.val = 0x3000

/-- Characters matched by Python's `\w` under `re.UNICODE`: ASCII letters,
digits and underscore; every non-ASCII character is treated as a word
character here (exact on the ASCII fragment; Python's Unicode `\w` is a
strict subset of the non-ASCII range). -/
def isWordChar (c : Char) : Bool :=
  c.isAlphanum || c = '_' || 128 ≤ c.val

/-- Character class of `NAME_ALLOWED_PATTERN = ^[\w .,'\&/()-]+$`
(src/validators.py line 13). `c.val = 39` is the apostrophe. -/
def nameAllowedChar (c : Char) : Bool :=
  isWordChar c || c = ' ' || c = '.' || c = ',' || c.val = 39 ||
  c = '&' || c = '/' || c = '(' || c = ')' || c = '-'

/-- Character class of `ITEM_ALLOWED_PATTERN = ^[\w .,'\&/()-+%]+$`
(src/validators.py line 14). Unlike the name pattern, the `-` here is
NOT last in the class: the unescaped `-` between `)` and `+` is a range
operator, so the class contains the range `)`..`+` (code points 0x29 to
0x2b, i.e. `)`, `*`, `+`) and does NOT contain a literal hyphen. With the
adjacent literal `(` (0x28) that range merges into 0x28..0x2b. -/
def itemAllowedChar (c : Char) : Bool :=
  isWordChar c || c = ' ' || c = '.' || c = ',' || c.val = 39 ||
  c = '&' || c = '/' || (0x28 ≤ c.val && c.val ≤ 0x2b) || c = '%'

/-- `re.sub(r"\s+", " ", value)`: replace every maximal run of whitespace
by a single space. A run's characters are skipped until its last one,
which is emitted as `' '`. -/
def collapseWS : List Char → List Char
  | [] => []
  | [c] => if pyIsSpace c then [' '] else [c]
  | c :: d :: rest =>
      if pyIsSpace c then
        if pyIsSpace d then collapseWS (d :: rest)
        else ' ' :: collapseWS (d :: rest)
      else c :: collapseWS (d :: rest)

/-- Python `str.strip()`: drop whitespace from both ends. -/
def stripWS (l : List Char) : List Char :=
  ((l.dropWhile pyIsSpace).reverse.dropWhile pyIsSpace).reverse

/-- `normalize_text` (src/validators.py lines 17-21): collapse whitespace
runs to single spaces, then strip the ends. (Python's early return for the
empty string coincides with the general path.) -/
def normalize_text (value : List Char) : List Char :=
  stripWS (collapseWS value)

/-- Configuration constants of `AppConfig` (src/config.py), as exact
rationals. -/
def MANDI_CHARGE_RATE : ℚ := 15 / 1000

/-- `MUDDAT_RATE = 0.015`. -/
def MUDDAT_RATE : ℚ := 15 / 1000

/-- `CASH_DISCOUNT_RATE = 0.04`. -/
def CASH_DISCOUNT_RATE : ℚ := 4 / 100

/-- `TRACTOR_RENT_PER_QUINTAL = 15.0`. -/
def TRACTOR_RENT_PER_QUINTAL : ℚ := 15

/-- `LABOUR_CHARGE_PER_QUINTAL = 60.0`. -/
def LABOUR_CHARGE_PER_QUINTAL : ℚ := 60

/-- `TRANSPORT_CHARGE_PER_QUINTAL = 280.0`. -/
def TRANSPORT_CHARGE_PER_QUINTAL : ℚ := 280

/-- `MAX_QUANTITY = 10000.0`. -/
def MAX_QUANTITY : ℚ := 10000

/-- `MAX_PRICE = 1000000.0`. -/
def MAX_PRICE : ℚ := 1000000

/-- `MAX_AMOUNT = 100000000.0`. -/
def MAX_AMOUNT : ℚ := 100000000

/-- `MIN_QUANTITY = 0.01`. -/
def MIN_QUANTITY : ℚ := 1 / 100

/-- `MIN_PRICE = 0.01`. -/
def MIN_PRICE : ℚ := 1 / 100

/-- `MAX_NAME_LENGTH = 100`. -/
def MAX_NAME_LENGTH : Nat := 100

/-- `MAX_ITEM_NAME_LENGTH = 100`. -/
def MAX_ITEM_NAME_LENGTH : Nat := 100

/-- `MAX_NOTES_LENGTH = 500`. -/
def MAX_NOTES_LENGTH : Nat := 500

/-- `validate_text_field` (src/validators.py lines 24-54); the error
message of the pair is dropped, only validity is kept. The regex
`^[...]+$` matches exactly the nonempty strings of allowed characters
(both call sites pass a pre-normalized value, which contains no newline,
so `$`-before-final-newline cannot fire). -/
def validate_text_field (value : List Char) (max_length : Nat)
    (pat : Option (Char → Bool)) : Bool :=
  if value.isEmpty || (stripWS value).isEmpty then false
  else if max_length < value.length then false
  else if value.any (fun c => c = '<' || c = '>') then false
  else match pat with
    | some p => !value.isEmpty && value.all p
    | none => true

/-- `validate_name` (src/validators.py lines 57-60): normalize, then check
against `MAX_NAME_LENGTH` and `NAME_ALLOWED_PATTERN`. -/
def validate_name (name : List Char) : Bool :=
  validate_text_field (normalize_text name) MAX_NAME_LENGTH (some nameAllowedChar)

/-- `validate_item_name` (src/validators.py lines 63-66). -/
def validate_item_name (name : List Char) : Bool :=
  validate_text_field (normalize_text name) MAX_ITEM_NAME_LENGTH (some itemAllowedChar)

/-- `validate_numeric_value` (src/validators.py lines 69-99): range check
`min_val ≤ value ≤ max_val`. The NaN and non-number/boolean rejections
have no counterpart in the exact-rational model, where every value is a
number. -/
def validate_numeric_value (value min_val max_val : ℚ) : Bool :=
  !(value < min_val) && !(value > max_val)

/-- `validate_notes` (src/validators.py lines 102-122): optional; if
present, bounded length and no angle brackets. -/
def validate_notes (notes : List Char) : Bool :=
  if notes.isEmpty then true
  else if MAX_NOTES_LENGTH < notes.length then false
  else !(notes.any fun c => c = '<' || c = '>')

/-- `sanitize_string` (src/validators.py lines 125-140): remove `<` and
`>` (`re.sub(r"[<>]", "", ...)`), then `normalize_text`. -/
def sanitize_string (input_str : List Char) : List Char :=
  normalize_text (input_str.filter fun c => !(c = '<' || c = '>'))

/-- `calculate_buying_price` (src/calculations.py lines 11-39): guards on
positive inputs (`raise ValueError` becomes `Except.error`), then returns
`(total, mandi_charge, tractor_rent, muddat)`. -/
def calculate_buying_price (buying_price weight_quintal : ℚ) :
    Except String (ℚ × ℚ × ℚ × ℚ) :=
  if buying_price ≤ 0 then .error "Buying price must be positive"
  else if weight_quintal ≤ 0 then .error "Weight must be positive"
  else
    let mandi_charge := MANDI_CHARGE_RATE * buying_price
    let tractor_rent := TRACTOR_RENT_PER_QUINTAL * weight_quintal
    let muddat := MUDDAT_RATE * buying_price
    let total_buying_price := buying_price + mandi_charge + tractor_rent + muddat
    .ok (total_buying_price, mandi_charge, tractor_rent, muddat)

/-- `calculate_selling_price` (src/calculations.py lines 42-75): guards on
positive inputs, computes deductions, clamps a negative total to 0 (a
warning, not an error), and returns
`(total, cash_discount, labour_charge, transport_charge)`. -/
def calculate_selling_price (selling_price weight_quintal : ℚ) :
    Except String (ℚ × ℚ × ℚ × ℚ) :=
  if selling_price ≤ 0 then .error "Selling price must be positive"
  else if weight_quintal ≤ 0 then .error "Weight must be positive"
  else
    let cash_discount := CASH_DISCOUNT_RATE * selling_price
    let labour_charge := LABOUR_CHARGE_PER_QUINTAL * weight_quintal
    let transport_charge := TRANSPORT_CHARGE_PER_QUINTAL * weight_quintal
    let total_selling_price :=
      selling_price - cash_discount - labour_charge - transport_charge
    let clamped := if total_selling_price < 0 then 0 else total_selling_price
    .ok (clamped, cash_discount, labour_charge, transport_charge)

/-- A row of the `transactions` table (src/database.py lines 79-102).
`transaction_type` is `"BUY"` or `"SELL"`, `status` is `"PENDING"`,
`"SOLD"` or `"COMPLETED"`; both are compared as strings, as in the code.
`quantity_kg` is semantically quintals (spec §3). -/
structure Transaction where
  id : Nat
  transaction_type : String
  buyer_name : Option (List Char)
  seller_name : Option (List Char)
  item_name : List Char
  quantity_kg : ℚ
  price_per_unit : ℚ
  base_amount : ℚ
  mandi_charge : ℚ
  tractor_rent : ℚ
  muddat : ℚ
  cash_discount : ℚ
  labour_charge : ℚ
  transport_charge : ℚ
  total_amount : ℚ
  amount_paid : ℚ
  transaction_date : Nat
  notes : List Char
  status : String
  updated_at : Nat
deriving DecidableEq, Repr

/-- The persisted `transactions` table: its rows in insertion order plus
the next serial id. -/
structure DB where
  rows : List Transaction
  nextId : Nat
deriving DecidableEq, Repr

/-- `get_transaction_by_id` (src/database.py lines 188-208):
`SELECT * FROM transactions WHERE id = %s`, first (only) matching row or
empty. -/
def get_transaction_by_id (db : DB) (transaction_id : Nat) : Option Transaction :=
  db.rows.find? fun t => t.id == transaction_id

/-- `INSERT INTO transactions ...`: append a row carrying the next serial
id. -/
def insertRow (db : DB) (row : Transaction) : DB :=
  { rows := db.rows ++ [row], nextId := db.nextId + 1 }

/-- `UPDATE transactions SET status = ?, updated_at = ? WHERE id = ?`
(src/transactions.py lines 247-248). -/
def updateStatus (db : DB) (now : Nat) (transaction_id : Nat) (st : String) : DB :=
  { db with
    rows := db.rows.map fun t =>
      if t.id == transaction_id then { t with status := st, updated_at := now } else t }

/-- Whether the connection accepts the sqlite-style `?` placeholders used
by every parameterized write in src/transactions.py. It does not:
transactions.py is sqlite-era code (`import sqlite3`, `?` placeholders,
`c.lastrowid`), but `get_db_connection` (src/database.py lines 29-53)
yields a psycopg2 (PostgreSQL) connection, which accepts only `%s`
placeholders, so every such `c.execute` raises before reaching the
database; the raise is caught by the functions' generic except handlers.
Definitions whose claims depend on this staged behavior are gated on this
constant. -/
def qmarkParamsAccepted : Bool := false

/-- `add_buying_transaction` (src/transactions.py lines 20-125): validate
every field, sanitize text, derive `base_amount = price_per_unit *
quantity`, reject `amount_paid > total_amount`, then insert a `BUY` row
with status `PENDING` storing the caller-supplied charge fields and
`total_amount` verbatim. Returns the unchanged table and `none` on any
rejection.

Declared idealization: the INSERT is modelled by the intended semantics
of its SQL statement. In the staged program its `?` placeholders raise on
the psycopg2 connection (see `qmarkParamsAccepted`), so the success
branch is unreachable there and conditional theorems proved about this
definition are at least as strong as what the staged program exhibits. -/
def add_buying_transaction (db : DB) (now : Nat)
    (buyer_name item_name : List Char)
    (quantity_quintal price_per_unit mandi_charge tractor_rent muddat
      total_amount amount_paid : ℚ)
    (notes : List Char) : DB × Option Nat :=
  if !validate_name buyer_name then (db, none)
  else if !validate_item_name item_name then (db, none)
  else if !validate_numeric_value quantity_quintal MIN_QUANTITY MAX_QUANTITY then (db, none)
  else if !validate_numeric_value price_per_unit MIN_PRICE MAX_PRICE then (db, none)
  else if !validate_numeric_value amount_paid 0 MAX_AMOUNT then (db, none)
  else if !validate_notes notes then (db, none)
  else
    let buyer := sanitize_string buyer_name
    let item := sanitize_string item_name
    let clean_notes := sanitize_string notes
    let base_amount := price_per_unit * quantity_quintal
    if amount_paid > total_amount then (db, none)
    else
      (insertRow db
        { id := db.nextId, transaction_type := "BUY",
          buyer_name := some buyer, seller_name := none, item_name := item,
          quantity_kg := quantity_quintal, price_per_unit := price_per_unit,
          base_amount := base_amount, mandi_charge := mandi_charge,
          tractor_rent := tractor_rent, muddat := muddat,
          cash_discount := 0, labour_charge := 0, transport_charge := 0,
          total_amount := total_amount, amount_paid := amount_paid,
          transaction_date := now, notes := clean_notes,
          status := "PENDING", updated_at := now },
       some db.nextId)

/-- Python truthiness of the `Optional[int]` link argument
(`if buy_transaction_id:`): `None` and `0` are falsy. -/
def linkTruthy : Option Nat → Bool
  | none => false
  | some n => !(n == 0)

/-- The linked-purchase validation of `add_selling_transaction`
(src/transactions.py lines 211-228): skipped when the link argument is
falsy; otherwise the linked transaction must exist, be of type `BUY` with
status `PENDING`, and its quantity must not be exceeded by the sale
quantity. (The `float(...)` conversion of the stored quantity cannot fail
in this model, where the field is always numeric.) -/
def link_purchase_ok (db : DB) (quantity_quintal : ℚ)
    (buy_transaction_id : Option Nat) : Bool :=
  if linkTruthy buy_transaction_id then
    match get_transaction_by_id db (buy_transaction_id.getD 0) with
    | none => false
    | some linked =>
        if linked.transaction_type ≠ "BUY" ∨ linked.status ≠ "PENDING" then false
        else if quantity_quintal > linked.quantity_kg then false
        else true
  else true

/-- `add_selling_transaction` (src/transactions.py lines 128-262), with
its commit points made explicit. The result's first component is the list
of table states committed by `conn.commit()`, in order: the state after
the `SELL` insert (line 242) and, when a linked purchase id was supplied,
the state after the linked `BUY`'s status update (line 249). Rejections
(validation, overpayment, linkage) happen before any commit, so they
contribute the empty list. The second component is the returned
transaction id, `none` on failure.

Declared idealization: the INSERT and UPDATE are modelled by the intended
semantics of their SQL statements; in the staged program their `?`
placeholders raise on the psycopg2 connection (see
`qmarkParamsAccepted`), so the write branches are unreachable there (the
driver-faithful variant is `add_selling_transaction_run_pg`). -/
def add_selling_transaction_run (db : DB) (now : Nat)
    (seller_name item_name : List Char)
    (quantity_quintal price_per_unit cash_discount labour_charge
      transport_charge total_amount amount_paid : ℚ)
    (buy_transaction_id : Option Nat)
    (notes : List Char) : List DB × Option Nat :=
  if !validate_name seller_name then ([], none)
  else if !validate_item_name item_name then ([], none)
  else if !validate_numeric_value quantity_quintal MIN_QUANTITY MAX_QUANTITY then ([], none)
  else if !validate_numeric_value price_per_unit MIN_PRICE MAX_PRICE then ([], none)
  else if !validate_numeric_value amount_paid 0 MAX_AMOUNT then ([], none)
  else if !validate_notes notes then ([], none)
  else
    let seller := sanitize_string seller_name
    let item := sanitize_string item_name
    let clean_notes := sanitize_string notes
    let base_amount := price_per_unit * quantity_quintal
    if amount_paid > total_amount then ([], none)
    else
      if !link_purchase_ok db quantity_quintal buy_transaction_id then ([], none)
      else
        let db1 := insertRow db
          { id := db.nextId, transaction_type := "SELL",
            buyer_name := none, seller_name := some seller, item_name := item,
            quantity_kg := quantity_quintal, price_per_unit := price_per_unit,
            base_amount := base_amount, mandi_charge := 0,
            tractor_rent := 0, muddat := 0,
            cash_discount := cash_discount, labour_charge := labour_charge,
            transport_charge := transport_charge,
            total_amount := total_amount, amount_paid := amount_paid,
            transaction_date := now, notes := clean_notes,
            status := "COMPLETED", updated_at := now }
        if linkTruthy buy_transaction_id then
          let db2 := updateStatus db1 now (buy_transaction_id.getD 0) "SOLD"
          ([db1, db2], some db.nextId)
        else
          ([db1], some db.nextId)

/-- The observable result of `add_selling_transaction` when no failure
interrupts the sequence: the last committed state (the initial one when
nothing was committed) and the returned id. -/
def add_selling_transaction (db : DB) (now : Nat)
    (seller_name item_name : List Char)
    (quantity_quintal price_per_unit cash_discount labour_charge
      transport_charge total_amount amount_paid : ℚ)
    (buy_transaction_id : Option Nat)
    (notes : List Char) : DB × Option Nat :=
  let r := add_selling_transaction_run db now seller_name item_name
    quantity_quintal price_per_unit cash_discount labour_charge
    transport_charge total_amount amount_paid buy_transaction_id notes
  (r.1.getLastD db, r.2)

/-- `add_selling_transaction` (src/transactions.py lines 128-262) as
executed against the staged psycopg2 connection: identical control flow
to `add_selling_transaction_run`, but the INSERT at lines 232-240 runs
with its sqlite-style `?` placeholders, which the connection rejects
(`qmarkParamsAccepted = false`); the raise is caught by the except
handler and the function returns None before the first `conn.commit()`,
so the write sequence below the gate is dead. The first component is the
list of committed table states. -/
def add_selling_transaction_run_pg (db : DB) (now : Nat)
    (seller_name item_name : List Char)
    (quantity_quintal price_per_unit cash_discount labour_charge
      transport_charge total_amount amount_paid : ℚ)
    (buy_transaction_id : Option Nat)
    (notes : List Char) : List DB × Option Nat :=
  if !validate_name seller_name then ([], none)
  else if !validate_item_name item_name then ([], none)
  else if !validate_numeric_value quantity_quintal MIN_QUANTITY MAX_QUANTITY then ([], none)
  else if !validate_numeric_value price_per_unit MIN_PRICE MAX_PRICE then ([], none)
  else if !validate_numeric_value amount_paid 0 MAX_AMOUNT then ([], none)
  else if !validate_notes notes then ([], none)
  else
    let seller := sanitize_string seller_name
    let item := sanitize_string item_name
    let clean_notes := sanitize_string notes
    let base_amount := price_per_unit * quantity_quintal
    if amount_paid > total_amount then ([], none)
    else
      if !link_purchase_ok db quantity_quintal buy_transaction_id then ([], none)
      else if qmarkParamsAccepted then
        let db1 := insertRow db
          { id := db.nextId, transaction_type := "SELL",
            buyer_name := none, seller_name := some seller, item_name := item,
            quantity_kg := quantity_quintal, price_per_unit := price_per_unit,
            base_amount := base_amount, mandi_charge := 0,
            tractor_rent := 0, muddat := 0,
            cash_discount := cash_discount, labour_charge := labour_charge,
            transport_charge := transport_charge,
            total_amount := total_amount, amount_paid := amount_paid,
            transaction_date := now, notes := clean_notes,
            status := "COMPLETED", updated_at := now }
        if linkTruthy buy_transaction_id then
          ([db1, updateStatus db1 now (buy_transaction_id.getD 0) "SOLD"],
           some db.nextId)
        else
          ([db1], some db.nextId)
      else ([], none)

/-- `update_payment` (src/transactions.py lines 265-337): validate the
range `[0, MAX_AMOUNT]`, fetch the row (fail if absent), cap the new
amount at `base_amount = price_per_unit * quantity` and reject above it,
then attempt `c.execute('UPDATE transactions SET amount_paid = ?,
updated_at = ? WHERE id = ?', ...)` (lines 315-318). The sqlite-style `?`
placeholders are rejected by the psycopg2 connection
(`qmarkParamsAccepted = false`), the raise is caught by the generic
except handler and the function returns False with nothing persisted, so
the persisting branch is dead in the staged program. In this model
`price_per_unit` and `quantity_kg` are always numeric, so the
`pd.to_numeric` NaN fallback to `total_amount` is unreachable. -/
def update_payment (db : DB) (now : Nat) (transaction_id : Nat)
    (amount_paid : ℚ) : DB × Bool :=
  if !validate_numeric_value amount_paid 0 MAX_AMOUNT then (db, false)
  else
    match get_transaction_by_id db transaction_id with
    | none => (db, false)
    | some row =>
        let max_amount := row.price_per_unit * row.quantity_kg
        if amount_paid > max_amount then (db, false)
        else if qmarkParamsAccepted then
          ({ db with
             rows := db.rows.map fun t =>
               if t.id == transaction_id then
                 { t with amount_paid := amount_paid, updated_at := now }
               else t },
           true)
        else (db, false)

/-- One row of the buyer/seller ledger table (src/views/ledger.py): the
aggregates computed for one counterparty name. -/
structure LedgerRow where
  base_amount : ℚ
  paid : ℚ
  balance : ℚ
  count : Nat
  cleared : Bool
deriving DecidableEq, Repr

/-- The transactions aggregated for one buyer in `render_buyer_ledger`
(src/views/ledger.py lines 52, 72): `BUY` rows whose `buyer_name` equals
the given name. -/
def buyer_transactions_of (rows : List Transaction) (buyer : List Char) :
    List Transaction :=
  rows.filter fun t => t.transaction_type == "BUY" && t.buyer_name == some buyer

/-- The transactions aggregated for one seller in `render_seller_ledger`
(src/views/ledger.py lines 170-173, 193): `SELL` rows whose `seller_name`
equals the given name. -/
def seller_transactions_of (rows : List Transaction) (seller : List Char) :
    List Transaction :=
  rows.filter fun t => t.transaction_type == "SELL" && t.seller_name == some seller

/-- The buyer ledger row built in `render_buyer_ledger`
(src/views/ledger.py lines 70-84): sums of `base_amount` and
`amount_paid`, `balance = base - paid`, transaction count, and the status
flag `Cleared if balance <= 0.01 else Pending`. -/
def buyerLedgerRow (rows : List Transaction) (buyer : List Char) : LedgerRow :=
  let ts := buyer_transactions_of rows buyer
  let total_base := (ts.map (·.base_amount)).sum
  let total_paid := (ts.map (·.amount_paid)).sum
  let balance := total_base - total_paid
  { base_amount := total_base, paid := total_paid, balance := balance,
    count := ts.length, cleared := decide (balance ≤ 1 / 100) }

/-- The seller ledger row built in `render_seller_ledger`
(src/views/ledger.py lines 191-205), same aggregation with received
amounts. -/
def sellerLedgerRow (rows : List Transaction) (seller : List Char) : LedgerRow :=
  let ts := seller_transactions_of rows seller
  let total_base := (ts.map (·.base_amount)).sum
  let total_received := (ts.map (·.amount_paid)).sum
  let balance := total_base - total_received
  { base_amount := total_base, paid := total_received, balance := balance,
    count := ts.length, cleared := decide (balance ≤ 1 / 100) }

/-- C3: for every price > 0 and weight > 0, `calculate_buying_price`
returns `total = price*(1+0.015+0.015) + 15*weight` with components
`mandi_charge = 0.015*price`, `tractor_rent = 15*weight`,
`muddat = 0.015*price`; for price ≤ 0 or weight ≤ 0 it signals an error
instead of returning a result. -/
theorem calculate_buying_price_correct (price weight : ℚ) :
    (0 < price → 0 < weight →
      calculate_buying_price price weight =
        .ok (price * (1 + 15 / 1000 + 15 / 1000) + 15 * weight,
             15 / 1000 * price, 15 * weight, 15 / 1000 * price)) ∧
    ((price ≤ 0 ∨ weight ≤ 0) →
      ∃ msg, calculate_buying_price price weight = .error msg) := by
  constructor
  · intro hp hw
    simp only [calculate_buying_price, if_neg (not_le.mpr hp), if_neg (not_le.mpr hw),
      MANDI_CHARGE_RATE, TRACTOR_RENT_PER_QUINTAL, MUDDAT_RATE,
      Except.ok.injEq, Prod.mk.injEq]
    ring_nf
    exact ⟨trivial, trivial⟩
  · intro h
    by_cases hp : price ≤ 0
    · exact ⟨_, by rw [calculate_buying_price, if_pos hp]⟩
    · have hw : weight ≤ 0 := h.resolve_left hp
      exact ⟨_, by rw [calculate_buying_price, if_neg hp, if_pos hw]⟩

/-- C3 witness: the theorem instantiated at price 10000, weight 10 (the
spec's worked scenario) and at the invalid input price 0. -/
theorem calculate_buying_price_correct_witness :
    calculate_buying_price 10000 10 =
      .ok (10000 * (1 + 15 / 1000 + 15 / 1000) + 15 * 10,
           15 / 1000 * 10000, 15 * 10, 15 / 1000 * 10000) ∧
    ∃ msg, calculate_buying_price 0 10 = .error msg :=
  ⟨(calculate_buying_price_correct 10000 10).1 (by norm_num) (by norm_num),
   (calculate_buying_price_correct 0 10).2 (Or.inl le_rfl)⟩

/-- C4: for every price > 0 and weight > 0, `calculate_selling_price`
returns `total = max(0, price*(1-0.04) - 60*weight - 280*weight)` with
components `cash_discount = 0.04*price`, `labour_charge = 60*weight`,
`transport_charge = 280*weight`; a negative raw total is clamped to 0 and
still returned normally (an `.ok` result, not an error). -/
theorem calculate_selling_price_correct (price weight : ℚ)
    (hp : 0 < price) (hw : 0 < weight) :
    calculate_selling_price price weight =
      .ok (max 0 (price * (1 - 4 / 100) - 60 * weight - 280 * weight),
           4 / 100 * price, 60 * weight, 280 * weight) := by
  have hmax : ∀ x y : ℚ, x = y → (if x < 0 then (0 : ℚ) else x) = max 0 y := by
    intro x y hxy
    subst hxy
    rcases lt_or_le x 0 with h | h
    · rw [if_pos h]
      exact (max_eq_left h.le).symm
    · rw [if_neg (not_lt.mpr h), max_eq_right h]
  simp only [calculate_selling_price, if_neg (not_le.mpr hp), if_neg (not_le.mpr hw),
    CASH_DISCOUNT_RATE, LABOUR_CHARGE_PER_QUINTAL, TRANSPORT_CHARGE_PER_QUINTAL,
    Except.ok.injEq, Prod.mk.injEq]
  exact ⟨hmax _ _ (by ring), trivial⟩

/-- C4 witness: the spec's worked scenario price 12000, weight 10
(total 8120), and a clamped case (price 100, weight 10) that still
returns normally with total 0. -/
theorem calculate_selling_price_correct_witness :
    (0 : ℚ) < 12000 ∧ (0 : ℚ) < 10 ∧
    calculate_selling_price 12000 10 =
      .ok (max 0 (12000 * (1 - 4 / 100) - 60 * 10 - 280 * 10),
           4 / 100 * 12000, 60 * 10, 280 * 10) ∧
    calculate_selling_price 100 10 =
      .ok (max 0 (100 * (1 - 4 / 100) - 60 * 10 - 280 * 10),
           4 / 100 * 100, 60 * 10, 280 * 10) :=
  ⟨by norm_num, by norm_num,
   calculate_selling_price_correct 12000 10 (by norm_num) (by norm_num),
   calculate_selling_price_correct 100 10 (by norm_num) (by norm_num)⟩

/-- C6: whenever `amount_paid` exceeds `total_amount`, both
`add_buying_transaction` and `add_selling_transaction` reject before
persistence: they return failure and leave the table unchanged. -/
theorem overpayment_rejected_before_persistence (db : DB) (now : Nat)
    (name item notes : List Char) (qty price c1 c2 c3 total paid : ℚ)
    (bid : Option Nat) (h : paid > total) :
    add_buying_transaction db now name item qty price c1 c2 c3 total paid notes
      = (db, none) ∧
    add_selling_transaction db now name item qty price c1 c2 c3 total paid bid notes
      = (db, none) := by
  constructor
  · simp only [add_buying_transaction]
    repeat' split
    all_goals first | rfl | exact absurd h (by assumption)
  · simp only [add_selling_transaction, add_selling_transaction_run]
    repeat' split
    all_goals first | rfl | exact absurd h (by assumption)

/-- C6 witness: a concrete sale/purchase with `amount_paid = 200` against
`total_amount = 100` is rejected on the empty table. -/
theorem overpayment_rejected_witness :
    (200 : ℚ) > 100 ∧
    add_buying_transaction ⟨[], 1⟩ 0 (String.data "Ram") (String.data "Wheat")
      10 1000 150 150 150 100 200 [] = (⟨[], 1⟩, none) ∧
    add_selling_transaction ⟨[], 1⟩ 0 (String.data "Ram") (String.data "Wheat")
      10 1000 150 150 150 100 200 none [] = (⟨[], 1⟩, none) :=
  ⟨by norm_num,
   (overpayment_rejected_before_persistence ⟨[], 1⟩ 0 (String.data "Ram")
     (String.data "Wheat") [] 10 1000 150 150 150 100 200 none (by norm_num)).1,
   (overpayment_rejected_before_persistence ⟨[], 1⟩ 0 (String.data "Ram")
     (String.data "Wheat") [] 10 1000 150 150 150 100 200 none (by norm_num)).2⟩

/-- A sample pending purchase of 10 quintals at 1000 per quintal
(base 10000), used to evaluate `update_payment` at the claim's
cap-equal input. -/
def c5Row : Transaction :=
  { id := 1, transaction_type := "BUY", buyer_name := some (String.data "Ram"),
    seller_name := none, item_name := String.data "Wheat", quantity_kg := 10,
    price_per_unit := 1000, base_amount := 10000, mandi_charge := 150,
    tractor_rent := 150, muddat := 150, cash_discount := 0, labour_charge := 0,
    transport_charge := 0, total_amount := 10450, amount_paid := 0,
    transaction_date := 0, notes := [], status := "PENDING", updated_at := 0 }

/-- The one-row table holding `c5Row`. -/
def c5Db : DB := { rows := [c5Row], nextId := 2 }

/-- C5 (code_bug evaluation): `update_payment` never persists anything —
for every table, id and amount it returns False with the table unchanged,
because the UPDATE's sqlite-style `?` placeholders raise on the psycopg2
connection before any write. In particular, on `c5Db` the amount 10000
exactly equal to the settlement ceiling
`price_per_unit * quantity_kg = 10000`, which the claim says is accepted
and persisted with a refreshed `updated_at`, fails like every other
amount (its cap logic matches the claim; the write layer is broken by the
unfinished sqlite-to-psycopg2 migration). -/
theorem update_payment_never_persists :
    (∀ (db : DB) (now tid : Nat) (a : ℚ),
      update_payment db now tid a = (db, false)) ∧
    update_payment c5Db 7 1 10000 = (c5Db, false) := by
  have h : ∀ (db : DB) (now tid : Nat) (a : ℚ),
      update_payment db now tid a = (db, false) := by
    intro db now tid a
    simp only [update_payment, qmarkParamsAccepted, Bool.false_eq_true, if_false]
    repeat' split
    all_goals rfl
  exact ⟨h, h c5Db 7 1 10000⟩

/-- C2: in the staged program the SELL insert and the linked BUY status
update are applied as one atomic unit — trivially so: the INSERT raises
at `c.execute` (its `?` placeholders are rejected by the psycopg2
connection) before the first `conn.commit()`, so no call ever commits
either write. The commit trace is empty and the result is None for every
input: neither write takes effect, hence both-or-neither holds and no
failure can leave the SELL persisted while the linked BUY stays PENDING,
or vice versa. (A latent hazard outside this claim's truth: once the
placeholders are fixed, the two writes are committed by two separate
`conn.commit()` calls at lines 242 and 249.) -/
theorem sell_and_link_update_atomic (db : DB) (now : Nat)
    (sname iname notes : List Char)
    (qty price cd lc tc total paid : ℚ) (bid : Option Nat) :
    add_selling_transaction_run_pg db now sname iname qty price cd lc tc total paid
      bid notes = ([], none) := by
  simp only [add_selling_transaction_run_pg, qmarkParamsAccepted,
    Bool.false_eq_true, if_false]
  repeat' split
  all_goals rfl

/-- If the linked id is absent from the table, the link validation fails. -/
theorem link_ok_false_of_none (db : DB) (qty : ℚ) (bid : Nat) (hbid : bid ≠ 0)
    (h : get_transaction_by_id db bid = none) :
    link_purchase_ok db qty (some bid) = false := by
  simp [link_purchase_ok, linkTruthy, hbid, h]

/-- If the linked transaction is not a pending BUY of sufficient quantity,
the link validation fails. -/
theorem link_ok_false_of_bad (db : DB) (qty : ℚ) (bid : Nat) (hbid : bid ≠ 0)
    (t : Transaction)
    (ht : get_transaction_by_id db bid = some t)
    (hc : t.transaction_type ≠ "BUY" ∨ t.status ≠ "PENDING" ∨ t.quantity_kg < qty) :
    link_purchase_ok db qty (some bid) = false := by
  have hb : (bid == 0) = false := beq_eq_false_iff_ne.mpr hbid
  simp only [link_purchase_ok, linkTruthy, hb, Bool.not_false, Option.getD_some, ht]
  rw [if_pos trivial]
  rcases hc with hc | hc | hc
  · rw [if_pos (Or.inl hc)]
  · rw [if_pos (Or.inr hc)]
  · by_cases h1 : t.transaction_type ≠ "BUY" ∨ t.status ≠ "PENDING"
    · rw [if_pos h1]
    · rw [if_neg h1, if_pos hc]

/-- A passing link validation implies the linked row exists. -/
theorem link_ok_some (db : DB) (qty : ℚ) (bid : Nat) (hbid : bid ≠ 0)
    (h : link_purchase_ok db qty (some bid) = true) :
    ∃ t, get_transaction_by_id db bid = some t := by
  rcases hget : get_transaction_by_id db bid with _ | t
  · rw [link_ok_false_of_none db qty bid hbid hget] at h
    cases h
  · exact ⟨t, rfl⟩

/-- A lookup that succeeded still succeeds with the same row after an
insert (the table is scanned front to back and inserts append). -/
theorem get_insert_preserved (db : DB) (row : Transaction) (tid : Nat) (t : Transaction)
    (h : get_transaction_by_id db tid = some t) :
    get_transaction_by_id (insertRow db row) tid = some t := by
  simp only [get_transaction_by_id, insertRow] at *
  rw [List.find?_append, h]
  rfl

/-- After `updateStatus`, looking up the targeted id returns the old row
with the new status and refreshed `updated_at`. -/
theorem get_updateStatus_self (db : DB) (now tid : Nat) (st : String) (t : Transaction)
    (h : get_transaction_by_id db tid = some t) :
    get_transaction_by_id (updateStatus db now tid st) tid
      = some { t with status := st, updated_at := now } := by
  have hp := List.find?_some h
  simp only [get_transaction_by_id, updateStatus] at *
  rw [List.find?_map]
  have hcomp : ((fun x : Transaction => x.id == tid) ∘
      (fun x : Transaction =>
        if x.id == tid then { x with status := st, updated_at := now } else x))
      = fun x : Transaction => x.id == tid := by
    funext x
    by_cases hx : x.id = tid <;> simp [beq_iff_eq, hx]
  rw [hcomp, h]
  simp only [Option.map_some']
  rw [if_pos hp]

set_option maxHeartbeats 1600000 in
/-- C1: a `record_sale` that supplies a (truthy) linked purchase id is
rejected with the table unchanged whenever the linked transaction is
missing, is not of type BUY, is not PENDING, or has quantity below the
sale quantity; and whenever such a call succeeds, the linked row's status
in the resulting table is SOLD. -/
theorem sale_linkage_spec (db : DB) (now : Nat) (sname iname notes : List Char)
    (qty price cd lc tc total paid : ℚ) (bid : Nat) (hbid : bid ≠ 0) :
    ((get_transaction_by_id db bid = none ∨
      (∃ t, get_transaction_by_id db bid = some t ∧
        (t.transaction_type ≠ "BUY" ∨ t.status ≠ "PENDING" ∨ t.quantity_kg < qty))) →
      add_selling_transaction db now sname iname qty price cd lc tc total paid
        (some bid) notes = (db, none)) ∧
    (∀ db2 tid, add_selling_transaction db now sname iname qty price cd lc tc total paid
        (some bid) notes = (db2, some tid) →
      ∃ t, get_transaction_by_id db2 bid = some t ∧ t.status = "SOLD") := by
  constructor
  · intro hrej
    have hlc : link_purchase_ok db qty (some bid) = false := by
      rcases hrej with h | ⟨t, ht, hc⟩
      · exact link_ok_false_of_none db qty bid hbid h
      · exact link_ok_false_of_bad db qty bid hbid t ht hc
    simp only [add_selling_transaction, add_selling_transaction_run, hlc]
    repeat' split
    all_goals first | rfl | exact absurd rfl (by assumption)
  · intro db2 tid hsucc
    have hlt : linkTruthy (some bid) = true := by simp [linkTruthy, hbid]
    simp only [add_selling_transaction, add_selling_transaction_run, hlt] at hsucc
    split at hsucc; · exact Option.noConfusion (congrArg Prod.snd hsucc)
    split at hsucc; · exact Option.noConfusion (congrArg Prod.snd hsucc)
    split at hsucc; · exact Option.noConfusion (congrArg Prod.snd hsucc)
    split at hsucc; · exact Option.noConfusion (congrArg Prod.snd hsucc)
    split at hsucc; · exact Option.noConfusion (congrArg Prod.snd hsucc)
    split at hsucc; · exact Option.noConfusion (congrArg Prod.snd hsucc)
    split at hsucc; · exact Option.noConfusion (congrArg Prod.snd hsucc)
    split at hsucc; · exact Option.noConfusion (congrArg Prod.snd hsucc)
    rename_i hlk
    have hok : link_purchase_ok db qty (some bid) = true := by
      revert hlk
      cases link_purchase_ok db qty (some bid) <;> simp
    obtain ⟨linked, hget⟩ := link_ok_some db qty bid hbid hok
    rw [if_pos trivial] at hsucc
    rw [Prod.mk.injEq] at hsucc
    obtain ⟨hdb2, -⟩ := hsucc
    have hred : ∀ a b d : DB, ([a, b].getLastD d) = b := fun _ _ _ => rfl
    rw [hred] at hdb2
    subst hdb2
    simp only [Option.getD_some]
    exact ⟨_, get_updateStatus_self _ now bid "SOLD" linked
      (get_insert_preserved db _ bid linked hget), rfl⟩

/-- The link target used to instantiate the linkage theorem: a pending
BUY of 50 quintals. -/
def c1BuyRow : Transaction :=
  { id := 1, transaction_type := "BUY", buyer_name := some (String.data "Ram"),
    seller_name := none, item_name := String.data "Wheat", quantity_kg := 50,
    price_per_unit := 1000, base_amount := 50000, mandi_charge := 750,
    tractor_rent := 750, muddat := 750, cash_discount := 0, labour_charge := 0,
    transport_charge := 0, total_amount := 52250, amount_paid := 0,
    transaction_date := 0, notes := [], status := "PENDING", updated_at := 0 }

/-- The one-row table holding `c1BuyRow`. -/
def c1Db : DB := { rows := [c1BuyRow], nextId := 2 }

/-- The result of the successful linked sale of all 50 quintals. -/
def c1SellResult : DB × Option Nat :=
  add_selling_transaction c1Db 5 (String.data "Shyam") (String.data "Wheat")
    50 1200 2400 3000 14000 40600 0 (some 1) []

/-- C1 witness: selling 60 quintals against the 50-quintal pending BUY is
rejected with the table unchanged, and after the successful sale of 50
quintals the linked BUY is SOLD. -/
theorem sale_linkage_spec_witness :
    add_selling_transaction c1Db 5 (String.data "Shyam") (String.data "Wheat")
      60 1200 2400 3000 14000 40600 0 (some 1) [] = (c1Db, none) ∧
    ∃ t, get_transaction_by_id c1SellResult.1 1 = some t ∧ t.status = "SOLD" := by
  constructor
  · exact (sale_linkage_spec c1Db 5 (String.data "Shyam") (String.data "Wheat") []
      60 1200 2400 3000 14000 40600 0 1 (by decide)).1
      (Or.inr ⟨c1BuyRow, rfl, Or.inr (Or.inr (by norm_num [c1BuyRow]))⟩)
  · have h2 : c1SellResult.2 = some 2 := by
      norm_num [c1SellResult, c1Db, c1BuyRow, add_selling_transaction,
        add_selling_transaction_run, validate_numeric_value, validate_notes,
        MIN_QUANTITY, MAX_QUANTITY, MIN_PRICE, MAX_PRICE, MAX_AMOUNT,
        get_transaction_by_id, linkTruthy, link_purchase_ok, insertRow, updateStatus]
      decide
    have hEq : add_selling_transaction c1Db 5 (String.data "Shyam") (String.data "Wheat")
        50 1200 2400 3000 14000 40600 0 (some 1) [] = (c1SellResult.1, some 2) := by
      rw [← h2, Prod.mk.eta, c1SellResult]
    exact (sale_linkage_spec c1Db 5 (String.data "Shyam") (String.data "Wheat") []
      50 1200 2400 3000 14000 40600 0 1 (by decide)).2 c1SellResult.1 2 hEq

set_option maxHeartbeats 1600000 in
/-- C9: every successfully persisted row stores the caller-supplied
`total_amount` and charge fields verbatim (`mandi_charge`, `tractor_rent`,
`muddat` for BUY; `cash_discount`, `labour_charge`, `transport_charge`
for SELL; the other side's charges zero), and only
`base_amount = price_per_unit * quantity` is derived internally. -/
theorem stored_charges_are_caller_supplied :
    (∀ (db db1 : DB) (now : Nat) (bname iname notes : List Char)
        (qty price m tr mu total paid : ℚ) (t1 : Nat),
      add_buying_transaction db now bname iname qty price m tr mu total paid notes
        = (db1, some t1) →
      db1.rows = db.rows ++
        [{ id := t1, transaction_type := "BUY",
           buyer_name := some (sanitize_string bname), seller_name := none,
           item_name := sanitize_string iname, quantity_kg := qty,
           price_per_unit := price, base_amount := price * qty,
           mandi_charge := m, tractor_rent := tr, muddat := mu,
           cash_discount := 0, labour_charge := 0, transport_charge := 0,
           total_amount := total, amount_paid := paid, transaction_date := now,
           notes := sanitize_string notes, status := "PENDING", updated_at := now }]) ∧
    (∀ (db db2 : DB) (now : Nat) (sname iname notes : List Char)
        (qty price cd lc tc total paid : ℚ) (bid : Option Nat) (t2 : Nat),
      add_selling_transaction db now sname iname qty price cd lc tc total paid bid notes
        = (db2, some t2) →
      ∃ t, t ∈ db2.rows ∧ t.id = t2 ∧ t.transaction_type = "SELL" ∧
        t.seller_name = some (sanitize_string sname) ∧
        t.item_name = sanitize_string iname ∧
        t.quantity_kg = qty ∧ t.price_per_unit = price ∧
        t.base_amount = price * qty ∧
        t.mandi_charge = 0 ∧ t.tractor_rent = 0 ∧ t.muddat = 0 ∧
        t.cash_discount = cd ∧ t.labour_charge = lc ∧ t.transport_charge = tc ∧
        t.total_amount = total ∧ t.amount_paid = paid) := by
  constructor
  · intro db db1 now bname iname notes qty price m tr mu total paid t1 hb
    simp only [add_buying_transaction] at hb
    split at hb; · exact Option.noConfusion (congrArg Prod.snd hb)
    split at hb; · exact Option.noConfusion (congrArg Prod.snd hb)
    split at hb; · exact Option.noConfusion (congrArg Prod.snd hb)
    split at hb; · exact Option.noConfusion (congrArg Prod.snd hb)
    split at hb; · exact Option.noConfusion (congrArg Prod.snd hb)
    split at hb; · exact Option.noConfusion (congrArg Prod.snd hb)
    split at hb; · exact Option.noConfusion (congrArg Prod.snd hb)
    rw [Prod.mk.injEq] at hb
    obtain ⟨h1, h2⟩ := hb
    injection h2 with h2
    subst h2
    rw [← h1]
    rfl
  · intro db db2 now sname iname notes qty price cd lc tc total paid bid t2 hs
    simp only [add_selling_transaction, add_selling_transaction_run] at hs
    split at hs; · exact Option.noConfusion (congrArg Prod.snd hs)
    split at hs; · exact Option.noConfusion (congrArg Prod.snd hs)
    split at hs; · exact Option.noConfusion (congrArg Prod.snd hs)
    split at hs; · exact Option.noConfusion (congrArg Prod.snd hs)
    split at hs; · exact Option.noConfusion (congrArg Prod.snd hs)
    split at hs; · exact Option.noConfusion (congrArg Prod.snd hs)
    split at hs; · exact Option.noConfusion (congrArg Prod.snd hs)
    split at hs; · exact Option.noConfusion (congrArg Prod.snd hs)
    split at hs
    · -- linked case
      have hred : ∀ a b d : DB, ([a, b].getLastD d) = b := fun _ _ _ => rfl
      rw [hred, Prod.mk.injEq] at hs
      obtain ⟨h1, h2⟩ := hs
      injection h2 with h2
      subst h2
      rw [← h1]
      refine ⟨_, List.mem_map_of_mem _
        (List.mem_append_right _ (List.mem_singleton.mpr rfl)), ?_⟩
      by_cases hcoll : ((db.nextId == (bid.getD 0)) = true)
      · rw [if_pos hcoll]
        exact ⟨rfl, rfl, rfl, rfl, rfl, rfl, rfl, rfl, rfl, rfl, rfl, rfl, rfl, rfl, rfl⟩
      · rw [if_neg hcoll]
        exact ⟨rfl, rfl, rfl, rfl, rfl, rfl, rfl, rfl, rfl, rfl, rfl, rfl, rfl, rfl, rfl⟩
    · -- unlinked case
      have hred : ∀ a d : DB, ([a].getLastD d) = a := fun _ _ => rfl
      rw [hred, Prod.mk.injEq] at hs
      obtain ⟨h1, h2⟩ := hs
      injection h2 with h2
      subst h2
      rw [← h1]
      exact ⟨_, List.mem_append_right _ (List.mem_singleton.mpr rfl),
        rfl, rfl, rfl, rfl, rfl, rfl, rfl, rfl, rfl, rfl, rfl, rfl, rfl, rfl, rfl⟩


/-- A successful purchase recorded on the empty table, for the C9
witness. -/
def c9Buy : DB × Option Nat :=
  add_buying_transaction ⟨[], 1⟩ 0 (String.data "Ram") (String.data "Wheat")
    10 1000 150 150 150 10450 0 []

/-- A successful unlinked sale recorded on the empty table, for the C9
witness. -/
def c9Sell : DB × Option Nat :=
  add_selling_transaction ⟨[], 1⟩ 0 (String.data "Shyam") (String.data "Wheat")
    10 1200 480 600 2800 8120 0 none []

/-- C9 witness: the theorem instantiated on the spec's worked scenario
(purchase 10 quintals at 1000 with charges 150/150/150 and total 10450;
sale 10 quintals at 1200 with deductions 480/600/2800 and total 8120). -/
theorem stored_charges_are_caller_supplied_witness :
    c9Buy.1.rows = ([] : List Transaction) ++
      [{ id := 1, transaction_type := "BUY",
         buyer_name := some (sanitize_string (String.data "Ram")), seller_name := none,
         item_name := sanitize_string (String.data "Wheat"), quantity_kg := 10,
         price_per_unit := 1000, base_amount := 1000 * 10,
         mandi_charge := 150, tractor_rent := 150, muddat := 150,
         cash_discount := 0, labour_charge := 0, transport_charge := 0,
         total_amount := 10450, amount_paid := 0, transaction_date := 0,
         notes := sanitize_string [], status := "PENDING", updated_at := 0 }] ∧
    (∃ t, t ∈ c9Sell.1.rows ∧ t.id = 1 ∧ t.transaction_type = "SELL" ∧
      t.seller_name = some (sanitize_string (String.data "Shyam")) ∧
      t.item_name = sanitize_string (String.data "Wheat") ∧
      t.quantity_kg = 10 ∧ t.price_per_unit = 1200 ∧ t.base_amount = 1200 * 10 ∧
      t.mandi_charge = 0 ∧ t.tractor_rent = 0 ∧ t.muddat = 0 ∧
      t.cash_discount = 480 ∧ t.labour_charge = 600 ∧ t.transport_charge = 2800 ∧
      t.total_amount = 8120 ∧ t.amount_paid = 0) := by
  constructor
  · have h2 : c9Buy.2 = some 1 := by
      norm_num [c9Buy, add_buying_transaction, validate_numeric_value, validate_notes,
        MIN_QUANTITY, MAX_QUANTITY, MIN_PRICE, MAX_PRICE, MAX_AMOUNT, insertRow]
      decide
    have hEq : add_buying_transaction ⟨[], 1⟩ 0 (String.data "Ram") (String.data "Wheat")
        10 1000 150 150 150 10450 0 [] = (c9Buy.1, some 1) := by
      rw [← h2, Prod.mk.eta, c9Buy]
    exact stored_charges_are_caller_supplied.1 _ _ _ _ _ _ _ _ _ _ _ _ _ _ hEq
  · have h2 : c9Sell.2 = some 1 := by
      norm_num [c9Sell, add_selling_transaction, add_selling_transaction_run,
        validate_numeric_value, validate_notes, MIN_QUANTITY, MAX_QUANTITY,
        MIN_PRICE, MAX_PRICE, MAX_AMOUNT, linkTruthy, link_purchase_ok, insertRow]
      decide
    have hEq : add_selling_transaction ⟨[], 1⟩ 0 (String.data "Shyam") (String.data "Wheat")
        10 1200 480 600 2800 8120 0 none [] = (c9Sell.1, some 1) := by
      rw [← h2, Prod.mk.eta, c9Sell]
    exact stored_charges_are_caller_supplied.2 _ _ _ _ _ _ _ _ _ _ _ _ _ _ _ hEq

/-- A BUY whose buyer overpaid: base 100 but 200 already paid. -/
def c7Row : Transaction :=
  { id := 1, transaction_type := "BUY", buyer_name := some (String.data "X"),
    seller_name := none, item_name := String.data "Wheat", quantity_kg := 10,
    price_per_unit := 10, base_amount := 100, mandi_charge := 0,
    tractor_rent := 0, muddat := 0, cash_discount := 0, labour_charge := 0,
    transport_charge := 0, total_amount := 100, amount_paid := 200,
    transaction_date := 0, notes := [], status := "PENDING", updated_at := 0 }

/-- A SELL whose seller overpaid: base 100 but 200 already received. -/
def c7SellRow : Transaction :=
  { id := 2, transaction_type := "SELL", buyer_name := none,
    seller_name := some (String.data "Y"), item_name := String.data "Wheat",
    quantity_kg := 10, price_per_unit := 10, base_amount := 100,
    mandi_charge := 0, tractor_rent := 0, muddat := 0, cash_discount := 0,
    labour_charge := 0, transport_charge := 0, total_amount := 100,
    amount_paid := 200, transaction_date := 0, notes := [],
    status := "COMPLETED", updated_at := 0 }

/-- C7 counterexample: the ledger rows flag status with the signed test
`balance <= 0.01`, not `|balance| <= 0.01` as claimed. An overpaid
counterparty (balance -100) is displayed as cleared although
`|balance| = 100 > 0.01`. -/
theorem cleared_flag_ignores_overpayment :
    (buyerLedgerRow [c7Row] (String.data "X")).cleared = true ∧
    ¬(|(buyerLedgerRow [c7Row] (String.data "X")).balance| ≤ 1 / 100) ∧
    (sellerLedgerRow [c7SellRow] (String.data "Y")).cleared = true ∧
    ¬(|(sellerLedgerRow [c7SellRow] (String.data "Y")).balance| ≤ 1 / 100) := by
  norm_num [buyerLedgerRow, sellerLedgerRow, buyer_transactions_of,
    seller_transactions_of, c7Row, c7SellRow, List.filter]

/-- C7 (amended): for every transaction set and counterparty name of
either role, the ledger row aggregates the sum of `base_amount` (not
`total_amount`) as the amount due, the sum of `amount_paid`,
`balance = due - paid` and the transaction count, and it is flagged
cleared exactly when `balance ≤ 0.01` (signed comparison: an overpaid
party with negative balance is also flagged cleared). -/
theorem ledger_rows_aggregate_base_amounts (rows : List Transaction) (name : List Char) :
    ((buyerLedgerRow rows name).base_amount
        = ((buyer_transactions_of rows name).map (·.base_amount)).sum ∧
     (buyerLedgerRow rows name).paid
        = ((buyer_transactions_of rows name).map (·.amount_paid)).sum ∧
     (buyerLedgerRow rows name).balance
        = (buyerLedgerRow rows name).base_amount - (buyerLedgerRow rows name).paid ∧
     (buyerLedgerRow rows name).count = (buyer_transactions_of rows name).length ∧
     ((buyerLedgerRow rows name).cleared = true ↔
        (buyerLedgerRow rows name).balance ≤ 1 / 100)) ∧
    ((sellerLedgerRow rows name).base_amount
        = ((seller_transactions_of rows name).map (·.base_amount)).sum ∧
     (sellerLedgerRow rows name).paid
        = ((seller_transactions_of rows name).map (·.amount_paid)).sum ∧
     (sellerLedgerRow rows name).balance
        = (sellerLedgerRow rows name).base_amount - (sellerLedgerRow rows name).paid ∧
     (sellerLedgerRow rows name).count = (seller_transactions_of rows name).length ∧
     ((sellerLedgerRow rows name).cleared = true ↔
        (sellerLedgerRow rows name).balance ≤ 1 / 100)) := by
  exact ⟨⟨rfl, rfl, rfl, rfl, decide_eq_true_iff⟩,
         ⟨rfl, rfl, rfl, rfl, decide_eq_true_iff⟩⟩

/-- Every character of `collapseWS l` is a character of `l` or the space
that replaced a whitespace run. -/
theorem mem_collapseWS {l : List Char} {c : Char} (h : c ∈ collapseWS l) :
    c ∈ l ∨ c = ' ' := by
  induction l with
  | nil => cases h
  | cons a t ih =>
    cases t with
    | nil =>
      simp only [collapseWS] at h
      split at h
      · rcases List.mem_singleton.mp h with rfl
        exact Or.inr rfl
      · rcases List.mem_singleton.mp h with rfl
        exact Or.inl (List.mem_singleton.mpr rfl)
    | cons d rest =>
      simp only [collapseWS] at h
      split at h
      · split at h
        · rcases ih h with h1 | h1
          · exact Or.inl (List.mem_cons_of_mem a h1)
          · exact Or.inr h1
        · rcases List.mem_cons.mp h with rfl | h1
          · exact Or.inr rfl
          · rcases ih h1 with h2 | h2
            · exact Or.inl (List.mem_cons_of_mem a h2)
            · exact Or.inr h2
      · rcases List.mem_cons.mp h with rfl | h1
        · exact Or.inl (List.mem_cons_self c (d :: rest))
        · rcases ih h1 with h2 | h2
          · exact Or.inl (List.mem_cons_of_mem a h2)
          · exact Or.inr h2

/-- Every whitespace character surviving `collapseWS` is the plain space
`' '`. -/
theorem spaces_collapseWS {l : List Char} {c : Char} (h : c ∈ collapseWS l)
    (hsp : pyIsSpace c = true) : c = ' ' := by
  induction l with
  | nil => cases h
  | cons a t ih =>
    cases t with
    | nil =>
      simp only [collapseWS] at h
      split at h
      · exact List.mem_singleton.mp h
      · rcases List.mem_singleton.mp h with rfl
        rename_i ha
        exact absurd hsp (by simpa using ha)
    | cons d rest =>
      simp only [collapseWS] at h
      split at h
      · split at h
        · exact ih h
        · rcases List.mem_cons.mp h with rfl | h1
          · rfl
          · exact ih h1
      · rcases List.mem_cons.mp h with rfl | h1
        · rename_i ha
          exact absurd hsp (by simpa using ha)
        · exact ih h1

/-- `collapseWS` keeps a leading non-whitespace character in place. -/
theorem collapseWS_cons_of_not_space {d : Char} {rest : List Char}
    (hd : ¬pyIsSpace d = true) :
    ∃ t, collapseWS (d :: rest) = d :: t := by
  cases rest with
  | nil =>
    refine ⟨[], ?_⟩
    simp only [collapseWS]
    rw [if_neg hd]
  | cons e rest2 =>
    refine ⟨collapseWS (e :: rest2), ?_⟩
    simp only [collapseWS]
    rw [if_neg hd]

/-- `collapseWS` leaves no two adjacent whitespace characters. -/
theorem chain'_collapseWS (l : List Char) :
    List.Chain' (fun a b => ¬(pyIsSpace a = true ∧ pyIsSpace b = true))
      (collapseWS l) := by
  induction l with
  | nil => exact List.chain'_nil
  | cons a t ih =>
    cases t with
    | nil =>
      simp only [collapseWS]
      split <;> exact List.chain'_singleton _
    | cons d rest =>
      simp only [collapseWS]
      split
      · split
        · exact ih
        · rename_i hd
          rw [List.chain'_cons']
          refine ⟨?_, ih⟩
          intro y hy
          obtain ⟨tl, htl⟩ := collapseWS_cons_of_not_space hd
          rw [htl] at hy
          simp only [List.head?_cons, Option.mem_def, Option.some.injEq] at hy
          subst hy
          intro hcon
          exact hd hcon.2
      · rename_i ha
        rw [List.chain'_cons']
        refine ⟨?_, ih⟩
        intro y hy
        intro hcon
        exact ha hcon.1

/-- `collapseWS` fixes any list with no adjacent whitespace whose
whitespace is all plain spaces. -/
theorem collapseWS_eq_self {l : List Char}
    (h1 : List.Chain' (fun a b => ¬(pyIsSpace a = true ∧ pyIsSpace b = true)) l)
    (h2 : ∀ c ∈ l, pyIsSpace c = true → c = ' ') :
    collapseWS l = l := by
  induction l with
  | nil => rfl
  | cons a t ih =>
    cases t with
    | nil =>
      simp only [collapseWS]
      split
      · rename_i ha
        rw [h2 a (List.mem_singleton.mpr rfl) ha]
      · rfl
    | cons d rest =>
      rw [List.chain'_cons] at h1
      simp only [collapseWS]
      split
      · rename_i ha
        have hd : ¬pyIsSpace d = true := fun hdsp => h1.1 ⟨ha, hdsp⟩
        rw [if_neg hd]
        rw [h2 a (List.mem_cons_self a _) ha]
        rw [ih h1.2 (fun c hc => h2 c (List.mem_cons_of_mem a hc))]
      · rw [ih h1.2 (fun c hc => h2 c (List.mem_cons_of_mem a hc))]


/-- `dropWhile` is idempotent. -/
theorem dropWhile_fixpoint (p : Char → Bool) (l : List Char) :
    (l.dropWhile p).dropWhile p = l.dropWhile p := by
  induction l with
  | nil => rfl
  | cons a t ih =>
    by_cases h : p a = true
    · rw [List.dropWhile_cons_of_pos h, ih]
    · rw [List.dropWhile_cons_of_neg h, List.dropWhile_cons_of_neg h]

/-- The head surviving a `dropWhile` refutes the predicate. -/
theorem head?_dropWhile {p : Char → Bool} {l : List Char} {c : Char}
    (h : (l.dropWhile p).head? = some c) : p c = false := by
  induction l with
  | nil => cases h
  | cons a t ih =>
    by_cases hp : p a = true
    · rw [List.dropWhile_cons_of_pos hp] at h
      exact ih h
    · rw [List.dropWhile_cons_of_neg hp] at h
      simp only [List.head?_cons, Option.some.injEq] at h
      subst h
      exact Bool.eq_false_iff.mpr hp

/-- `dropWhile` keeps the last element when its result is nonempty. -/
theorem getLast?_dropWhile {p : Char → Bool} {l : List Char}
    (h : l.dropWhile p ≠ []) : (l.dropWhile p).getLast? = l.getLast? := by
  induction l with
  | nil => exact absurd rfl h
  | cons a t ih =>
    by_cases hp : p a = true
    · rw [List.dropWhile_cons_of_pos hp] at h ⊢
      cases t with
      | nil => exact absurd rfl h
      | cons b t2 =>
        rw [ih h, List.getLast?_cons_cons]
    · rw [List.dropWhile_cons_of_neg hp]

/-- `dropWhile` fixes a list whose head refutes the predicate. -/
theorem dropWhile_eq_self_of_head {p : Char → Bool} {l : List Char}
    (h : ∀ c, l.head? = some c → p c = false) : l.dropWhile p = l := by
  cases l with
  | nil => rfl
  | cons a t =>
    have := h a rfl
    rw [List.dropWhile_cons_of_neg (by simp [this])]

/-- `stripWS` only removes characters. -/
theorem mem_stripWS {l : List Char} {c : Char} (h : c ∈ stripWS l) : c ∈ l := by
  simp only [stripWS, List.mem_reverse] at h
  have h1 := (List.dropWhile_suffix pyIsSpace).subset h
  rw [List.mem_reverse] at h1
  exact (List.dropWhile_suffix pyIsSpace).subset h1

/-- A stripped list does not start with whitespace. -/
theorem head?_stripWS {l : List Char} {c : Char}
    (h : (stripWS l).head? = some c) : pyIsSpace c = false := by
  rw [stripWS, List.head?_reverse] at h
  have hne : (l.dropWhile pyIsSpace).reverse.dropWhile pyIsSpace ≠ [] := by
    intro hnil
    rw [hnil] at h
    cases h
  rw [getLast?_dropWhile hne, List.getLast?_reverse] at h
  exact head?_dropWhile h

/-- A stripped list does not end with whitespace. -/
theorem getLast?_stripWS {l : List Char} {c : Char}
    (h : (stripWS l).getLast? = some c) : pyIsSpace c = false := by
  rw [stripWS, List.getLast?_reverse] at h
  exact head?_dropWhile h

/-- `stripWS` preserves any adjacency invariant. -/
theorem chain'_stripWS {R : Char → Char → Prop}
    {l : List Char} (h : List.Chain' R l) : List.Chain' R (stripWS l) := by
  have h1 : List.Chain' R (l.dropWhile pyIsSpace) :=
    h.suffix (List.dropWhile_suffix pyIsSpace)
  have h2 : List.Chain' (flip R) (l.dropWhile pyIsSpace).reverse :=
    (@List.chain'_reverse _ (flip R) _).mpr h1
  have h3 : List.Chain' (flip R)
      ((l.dropWhile pyIsSpace).reverse.dropWhile pyIsSpace) :=
    h2.suffix (List.dropWhile_suffix pyIsSpace)
  rw [stripWS]
  exact List.chain'_reverse.mpr h3

/-- `stripWS` fixes a list with no whitespace at either end. -/
theorem stripWS_eq_self {l : List Char}
    (hh : ∀ c, l.head? = some c → pyIsSpace c = false)
    (hl : ∀ c, l.getLast? = some c → pyIsSpace c = false) :
    stripWS l = l := by
  rw [stripWS, dropWhile_eq_self_of_head hh]
  rw [dropWhile_eq_self_of_head (fun c hc => hl c (by rwa [List.head?_reverse] at hc))]
  exact List.reverse_reverse l


/-- Normalized text is already stripped. -/
theorem stripWS_normalize (v : List Char) :
    stripWS (normalize_text v) = normalize_text v := by
  rw [normalize_text]
  exact stripWS_eq_self (fun c hc => head?_stripWS hc)
    (fun c hc => getLast?_stripWS hc)

/-- C10: for every input, `sanitize_string` returns a string with no `<`
or `>`, no leading or trailing whitespace, and no two adjacent whitespace
characters, and it is idempotent. -/
theorem sanitize_string_spec (s : List Char) :
    ('<' ∉ sanitize_string s ∧ '>' ∉ sanitize_string s) ∧
    (∀ c, (sanitize_string s).head? = some c → pyIsSpace c = false) ∧
    (∀ c, (sanitize_string s).getLast? = some c → pyIsSpace c = false) ∧
    List.Chain' (fun a b => ¬(pyIsSpace a = true ∧ pyIsSpace b = true))
      (sanitize_string s) ∧
    sanitize_string (sanitize_string s) = sanitize_string s := by
  have hmem : ∀ c ∈ sanitize_string s, c ≠ '<' ∧ c ≠ '>' := by
    intro c hc
    rw [sanitize_string, normalize_text] at hc
    have h1 := mem_stripWS hc
    rcases mem_collapseWS h1 with h2 | rfl
    · rw [List.mem_filter] at h2
      have h3 := h2.2
      constructor <;> (intro h4; rw [h4] at h3; simp at h3)
    · exact ⟨by decide, by decide⟩
  have hspaces : ∀ c ∈ sanitize_string s, pyIsSpace c = true → c = ' ' := by
    intro c hc hsp
    rw [sanitize_string, normalize_text] at hc
    exact spaces_collapseWS (mem_stripWS hc) hsp
  have hchain : List.Chain' (fun a b => ¬(pyIsSpace a = true ∧ pyIsSpace b = true))
      (sanitize_string s) := by
    rw [sanitize_string, normalize_text]
    exact chain'_stripWS (chain'_collapseWS _)
  have hhead : ∀ c, (sanitize_string s).head? = some c → pyIsSpace c = false := by
    intro c hc
    rw [sanitize_string, normalize_text] at hc
    exact head?_stripWS hc
  have hlast : ∀ c, (sanitize_string s).getLast? = some c → pyIsSpace c = false := by
    intro c hc
    rw [sanitize_string, normalize_text] at hc
    exact getLast?_stripWS hc
  refine ⟨⟨fun h => (hmem _ h).1 rfl, fun h => (hmem _ h).2 rfl⟩,
    hhead, hlast, hchain, ?_⟩
  have hfil : List.filter (fun c => !(c = '<' || c = '>')) (sanitize_string s)
      = sanitize_string s := by
    refine List.filter_eq_self.mpr ?_
    intro a ha
    have h := hmem a ha
    simp [h.1, h.2]
  conv_lhs => rw [sanitize_string]
  rw [hfil, normalize_text, collapseWS_eq_self hchain hspaces]
  exact stripWS_eq_self hhead hlast

/-- C10 witness: the idempotence instance at a concrete input, together
with its evaluation. -/
theorem sanitize_string_spec_witness :
    sanitize_string (String.data " a  <b> ") = String.data "a b" ∧
    sanitize_string (sanitize_string (String.data " a  <b> "))
      = sanitize_string (String.data " a  <b> ") :=
  ⟨by decide, (sanitize_string_spec (String.data " a  <b> ")).2.2.2.2⟩

/-- C8 counterexample: the length/charset checks run on the NORMALIZED
value, not the raw one. The 103-character raw value `'a'` followed by 101
spaces and `'b'` exceeds 100 characters yet `validate_name` accepts it
(it normalizes to the 3-character result of joining a and b by one
space). -/
theorem validate_name_length_counterexample :
    100 < ('a' :: (List.replicate 101 ' ' ++ ['b'])).length ∧
    validate_name ('a' :: (List.replicate 101 ' ' ++ ['b'])) = true := by
  constructor
  · decide
  · decide

/-- C8 (amended): `validate_name` first normalizes the value (collapses
whitespace runs, trims the ends) and applies the checks to the normalized
value: it is valid iff the normalized value is nonempty, at most 100
characters, free of `<`/`>`, and made only of word characters, space and
`. , ' & / ( ) -`. -/
theorem validate_name_checks_normalized (s : List Char) :
    validate_name s = true ↔
      (normalize_text s ≠ [] ∧ (normalize_text s).length ≤ MAX_NAME_LENGTH ∧
       (∀ c ∈ normalize_text s, ¬(c = '<' ∨ c = '>')) ∧
       (∀ c ∈ normalize_text s, nameAllowedChar c = true)) := by
  rw [validate_name, validate_text_field, stripWS_normalize]
  by_cases h0 : (normalize_text s).isEmpty
  · rw [if_pos (by simp [h0])]
    simp [List.isEmpty_iff.mp h0]
  · rw [if_neg (by simp [h0])]
    have h0' : normalize_text s ≠ [] := by simpa [List.isEmpty_iff] using h0
    by_cases h1 : MAX_NAME_LENGTH < (normalize_text s).length
    · rw [if_pos h1]
      simp [h0', Nat.not_le.mpr h1]
    · rw [if_neg h1]
      by_cases h2 : (normalize_text s).any (fun c => c = '<' || c = '>') = true
      · rw [if_pos h2]
        simp only [List.any_eq_true] at h2
        obtain ⟨c, hc, hcc⟩ := h2
        simp only [Bool.false_eq_true, false_iff]
        intro hcon
        have := hcon.2.2.1 c hc
        rcases (by simpa using hcc : c = '<' ∨ c = '>') with rfl | rfl <;> simp at this
      · rw [if_neg h2]
        simp only [List.any_eq_true, not_exists, not_and] at h2
        simp only [Bool.and_eq_true, Bool.not_eq_true', List.isEmpty_iff,
          List.all_eq_true]
        constructor
        · rintro ⟨-, hall⟩
          refine ⟨h0', Nat.not_lt.mp h1, ?_, hall⟩
          intro c hc hcon
          have := h2 c hc
          rcases hcon with rfl | rfl <;> simp at this
        · rintro ⟨-, -, -, hall⟩
          exact ⟨by simpa [List.isEmpty_iff] using h0', hall⟩

/-- C8 witness: the amended theorem instantiated at a concrete valid
name. -/
theorem validate_name_checks_normalized_witness :
    validate_name (String.data "Ram & Sons") = true :=
  (validate_name_checks_normalized (String.data "Ram & Sons")).mpr (by decide)

end SM
